import Mathlib

/-!
Verification development for the deterministic month generator of the
"Energy Command Center" dashboard (src/unnamed/part_000).

Shallow embedding conventions:
* JS numbers are modelled as `ℚ` (exact arithmetic).  `Math.sin (x * Math.PI)`
  and `Math.cos (x * Math.PI)` are implementation-approximated per the
  ECMAScript specification, so they are modelled as abstract parameter
  functions bundled in an `Env`; every theorem below is proved for all
  environments, hence in particular for the actual floating-point one.
* JS `%` on integers is the truncated remainder, modelled by `Int.tmod`.
* `Number.prototype.toFixed(f)` picks the integer n minimizing |n / 10^f - x|,
  ties towards the larger n; `parseFloat(x.toFixed(1))` is therefore modelled
  by exact half-up rounding to one (resp. two) decimal places.
* JS `Date` values produced by `new Date(year, month, day)` (local midnight)
  are modelled as plain calendar triples `JsDate`; `toISOString`-level string
  formatting and time zones are not modelled, only the calendar date content.
* The mutable closure state of `createRng` is threaded explicitly: the state
  is an `Int`, `rngNext` advances it, `rngValue` reads the returned value.
* The process-wide `MONTH_CACHE` is modelled as an association list that is
  passed in and returned by `buildMonth`.
-/

namespace EnergyData

/-- Advance the Park-Miller generator state: `state = (state * 16807) % 2147483647`. -/
def rngNext (state : Int) : Int := (state * 16807).tmod 2147483647

/-- Value returned after an advance: `(state - 1) / 2147483646`. -/
def rngValue (state : Int) : ℚ := ((state : ℚ) - 1) / 2147483646

/-- Seed normalization done by `createRng`:
`let state = seed % 2147483647; if (state <= 0) state += 2147483646`. -/
def normalizeSeed (seed : Int) : Int :=
  let state := seed.tmod 2147483647
  if state ≤ 0 then state + 2147483646 else state

/-- The n-th value (0-based) of the sequence produced by `createRng(seed)`:
each call first advances the state, then returns the value. -/
def rngStream (seed : Int) (n : ℕ) : ℚ :=
  rngValue (rngNext^[n + 1] (normalizeSeed seed))

/-- States the generator is meant to range over: `[1, 2147483646]`. -/
def ValidRngState (s : Int) : Prop := 1 ≤ s ∧ s ≤ 2147483646

/-- `parseFloat(x.toFixed(1))`: round half-up to one decimal place. -/
def round1 (x : ℚ) : ℚ := (⌊x * 10 + 1/2⌋ : ℚ) / 10

/-- `parseFloat(x.toFixed(2))`: round half-up to two decimal places. -/
def round2 (x : ℚ) : ℚ := (⌊x * 100 + 1/2⌋ : ℚ) / 100

/-- A calendar date as held by a JS `Date` at local midnight:
`year`, zero-based `month`, 1-based `day`. -/
structure JsDate where
  year : Int
  month : Int
  day : Int
deriving DecidableEq

/-- Gregorian leap-year rule used by the JS `Date` calendar. -/
def isLeapYear (y : Int) : Bool :=
  (y.tmod 4 == 0 && y.tmod 100 != 0) || y.tmod 400 == 0

/-- Month lengths for a (non-)leap year, months indexed from 0 (January). -/
def monthLengths (leap : Bool) : List ℕ :=
  [31, if leap then 29 else 28, 31, 30, 31, 30, 31, 31, 30, 31, 30, 31]

/-- Number of days in (year, zero-based month), as computed by
`new Date(year, month + 1, 0).getDate()`; month indices ≥ 12 carry into
following years the way JS `Date` normalizes them. -/
def daysInMonth (year : Int) (month : ℕ) : ℕ :=
  (monthLengths (isLeapYear (year + (month / 12 : ℕ)))).getD (month % 12) 31

/-- The date denoted by `new Date(year, month, day)` for a zero-based month
index (possibly ≥ 12, normalized into later years) and a day that lies inside
the resulting month.  Day-of-month overflow normalization is not needed by the
generator, which only passes in-range days. -/
def mkDate (year : Int) (month : ℕ) (day : Int) : JsDate :=
  ⟨year + (month / 12 : ℕ), (month % 12 : ℕ), day⟩

inductive EnergyImpactType
  | reduction
  | shift
  | generation
deriving DecidableEq

structure EnergyImpact where
  type : EnergyImpactType
  value : ℚ
deriving DecidableEq

inductive TaskStatus
  | planned
  | completed
deriving DecidableEq

structure EnergyTask where
  id : String
  title : String
  time : String
  description : String
  impact : EnergyImpact
  status : TaskStatus
deriving DecidableEq

structure EnergyInsight where
  label : String
  change : ℚ
  description : String
deriving DecidableEq

inductive EventPriority
  | low
  | medium
  | high
deriving DecidableEq

structure DemandResponseEvent where
  id : String
  date : JsDate
  window : String
  priority : EventPriority
  incentive : String
  recommendation : String
deriving DecidableEq

structure EnergyDay where
  date : JsDate
  usageKwh : ℚ
  solarGenerationKwh : ℚ
  peakUsageKwh : ℚ
  offPeakUsageKwh : ℚ
  carbonKg : ℚ
  costUsd : ℚ
  baselineKwh : ℚ
  insights : List EnergyInsight
  tasks : List EnergyTask
deriving DecidableEq

structure MonthTotals where
  usageKwh : ℚ
  solarGenerationKwh : ℚ
  netGridKwh : ℚ
  carbonKg : ℚ
  baselineKwh : ℚ
  costUsd : ℚ
  targetKwh : ℚ
deriving DecidableEq

structure MonthEnergySnapshot where
  monthStart : JsDate
  label : String
  days : List EnergyDay
  totals : MonthTotals
  demandEvents : List DemandResponseEvent
  recommendations : List String
  weeklyAverages : List ℚ
deriving DecidableEq

/-- One entry of the `presets` array in `deriveTasks`: tasks without id/status. -/
structure TaskSpec where
  title : String
  time : String
  description : String
  impact : EnergyImpact
deriving DecidableEq

structure BuildTaskConfig where
  day : ℕ
  tasks : List TaskSpec
deriving DecidableEq

/-- The hardcoded `presets` array of `deriveTasks`. -/
def presets : List BuildTaskConfig :=
  [ { day := 2,
      tasks := [ { title := "Optimize thermostat schedule", time := "07:30",
                   description := "Adjust weekday morning setpoints to reduce HVAC runtime.",
                   impact := { type := EnergyImpactType.reduction, value := 2.4 } } ] },
    { day := 5,
      tasks := [ { title := "Schedule EV charging", time := "23:00",
                   description := "Shift EV charging to off-peak window for demand response incentive.",
                   impact := { type := EnergyImpactType.shift, value := 6.1 } } ] },
    { day := 12,
      tasks := [ { title := "Panel cleaning", time := "09:00",
                   description := "Rinse rooftop panels to improve solar harvest.",
                   impact := { type := EnergyImpactType.generation, value := 3.8 } } ] },
    { day := 18,
      tasks := [ { title := "Load tuning workshop", time := "15:30",
                   description := "Review automation scripts for HVAC and lighting.",
                   impact := { type := EnergyImpactType.reduction, value := 1.9 } },
                 { title := "Battery discharge planning", time := "19:00",
                   description := "Allocate battery discharge for peak window.",
                   impact := { type := EnergyImpactType.shift, value := 4.6 } } ] },
    { day := 24,
      tasks := [ { title := "Demand response rehearsal", time := "16:00",
                   description := "Test automated load curtailment scenario.",
                   impact := { type := EnergyImpactType.reduction, value := 2.8 } } ] } ]

/-- The ad-hoc branch of `deriveTasks`: one roll decides whether a task is
emitted, and on success a second roll determines the impact value. -/
def adhocTaskStep (day : ℕ) (rng : Int) : List EnergyTask × Int :=
  let s1 := rngNext rng
  if rngValue s1 > 0.8 then
    let s2 := rngNext s1
    ([ { id := toString day ++ "-adhoc", title := "Inspect standby loads", time := "21:30",
         description := "Verify vampire loads and smart plug schedules.",
         impact := { type := EnergyImpactType.reduction, value := round1 (1.2 + rngValue s2) },
         status := TaskStatus.planned } ], s2)
  else ([], s1)

/-- `deriveTasks(day, rng)`: preset days return their fixed tasks without
consuming the sequence; other days take the ad-hoc branch. -/
def deriveTasks (day : ℕ) (rng : Int) : List EnergyTask × Int :=
  match presets.find? (fun config => config.day == day) with
  | some preset =>
      (preset.tasks.enum.map (fun p =>
          { id := toString day ++ "-preset-" ++ toString p.1,
            title := p.2.title, time := p.2.time, description := p.2.description,
            impact := p.2.impact, status := TaskStatus.planned }), rng)
  | none => adhocTaskStep day rng

/-- The conditional solar-harvest part of `generateInsights`: the roll happens
only when `solarGenerationKwh > 12` (JS `&&` short-circuit). -/
def solarInsightStep (day : EnergyDay) (rng : Int) : List EnergyInsight × Int :=
  if day.solarGenerationKwh > 12 then
    let s := rngNext rng
    (if rngValue s > 0.3 then
        [ { label := "Solar harvest", change := round2 ((day.solarGenerationKwh - 10) / 10),
            description := "Higher solar yield captured during midday peak generation." } ]
      else [], s)
  else ([], rng)

/-- `generateInsights(day, rng)`: always an HVAC insight; a solar insight when
`solarGenerationKwh > 12` and a (short-circuited) roll exceeds 0.3; a peak
insight when `peakUsageKwh > 14`. -/
def generateInsights (day : EnergyDay) (rng : Int) : List EnergyInsight × Int :=
  let hvac : EnergyInsight :=
    { label := "HVAC runtime",
      change := round2 ((day.usageKwh - day.baselineKwh) / day.baselineKwh),
      description :=
        if day.usageKwh > day.baselineKwh then
          "Usage rose above baseline due to higher cooling load."
        else
          "Usage stayed below baseline thanks to optimized thermostat scheduling." }
  let peakList : List EnergyInsight :=
    if day.peakUsageKwh > 14 then
      [ { label := "Peak window", change := round2 ((day.peakUsageKwh - 12) / 12),
          description := "Peak window loads climbed. Consider shifting dishwasher or laundry." } ]
    else []
  (hvac :: (solarInsightStep day rng).1 ++ peakList, (solarInsightStep day rng).2)

/-- Priority draw of `createDemandEvents`: the second roll happens only when
the first one does not exceed 0.65 (JS conditional operator short-circuit). -/
def demandPriorityDraw (rng : Int) : EventPriority × Int :=
  let s2 := rngNext rng
  if rngValue s2 > 0.65 then (EventPriority.high, s2)
  else
    let s3 := rngNext s2
    (if rngValue s3 > 0.35 then EventPriority.medium else EventPriority.low, s3)

/-- Body of the event loop in `createDemandEvents`, building `count` events
starting at `index`. -/
def demandEventsLoop (year : Int) (month : ℕ) (daysInM : ℕ) :
    ℕ → ℕ → Int → List DemandResponseEvent × Int
  | 0, _, rng => ([], rng)
  | Nat.succ n, index, rng =>
      let s1 := rngNext rng
      let day : Int := 5 + ⌊rngValue s1 * ((daysInM : ℚ) - 10)⌋
      let pr := demandPriorityDraw s1
      let s4 := rngNext pr.2
      let windowStartHour : Int := 15 + ⌊rngValue s4 * 3⌋
      let windowEndHour : Int := windowStartHour + 2
      let event : DemandResponseEvent :=
        { id := toString year ++ "-" ++ toString month ++ "-" ++ toString index,
          date := mkDate year month day,
          window := toString windowStartHour ++ ":00-" ++ toString windowEndHour ++ ":00",
          priority := pr.1,
          incentive :=
            match pr.1 with
            | EventPriority.high => "$40 credit"
            | EventPriority.medium => "$25 credit"
            | EventPriority.low => "$15 credit",
          recommendation :=
            match pr.1 with
            | EventPriority.high =>
                "Pre-cool the building and discharge battery during the event window."
            | _ => "Shift flexible loads and monitor HVAC staging during the event window." }
      let rest := demandEventsLoop year month daysInM n (index + 1) s4
      (event :: rest.1, rest.2)

/-- Chronological key of an event date; the comparator
`new Date(a.date).getTime() - new Date(b.date).getTime()` orders events of one
month exactly by this key. -/
def demandDateKey (d : JsDate) : Int := (d.year * 12 + d.month) * 32 + d.day

/-- Comparator used to sort demand events: non-decreasing by event date. -/
def demandLE (a b : DemandResponseEvent) : Prop :=
  demandDateKey a.date ≤ demandDateKey b.date

instance : DecidableRel demandLE :=
  fun a b => inferInstanceAs (Decidable (demandDateKey a.date ≤ demandDateKey b.date))

instance : IsTotal DemandResponseEvent demandLE :=
  ⟨fun a b => Int.le_total (demandDateKey a.date) (demandDateKey b.date)⟩

instance : IsTrans DemandResponseEvent demandLE :=
  ⟨fun _ _ _ h1 h2 => le_trans h1 h2⟩

/-- `createDemandEvents(year, month, rng)`: 2 + ⌊roll·2⌋ events, then a stable
sort ascending by date (JS `Array.prototype.sort` is stable; modelled by
insertion sort). -/
def createDemandEvents (year : Int) (month : ℕ) (rng : Int) :
    List DemandResponseEvent × Int :=
  let daysInM := daysInMonth year month
  let s0 := rngNext rng
  let eventCount : Int := 2 + ⌊rngValue s0 * 2⌋
  let raw := demandEventsLoop year month daysInM eventCount.toNat 0 s0
  (List.insertionSort demandLE raw.1, raw.2)

/-- Abstract stand-ins for `Math.sin (x * Math.PI)` and
`Math.cos (x * Math.PI)`, which ECMAScript leaves implementation-approximated. -/
structure Env where
  sinpi : ℚ → ℚ
  cospi : ℚ → ℚ

/-- One iteration of the per-day loop of `buildMonth`: four metric rolls, the
derived metrics rounded into the stored `EnergyDay`, then tasks and insights. -/
def buildDay (env : Env) (year : Int) (month : ℕ) (daysInM : ℕ) (day : ℕ)
    (rng : Int) : EnergyDay × Int :=
  let s1 := rngNext rng
  let seasonalModifier := 0.9 + rngValue s1 * 0.2
  let baseline : ℚ := 28 + env.sinpi ((day : ℚ) / (daysInM : ℚ)) * 5
  let s2 := rngNext s1
  let usage := baseline * seasonalModifier + rngValue s2 * 4 - 1.5
  let s3 := rngNext s2
  let solar := 11 + env.cospi ((day : ℚ) / (daysInM : ℚ)) * 4 + rngValue s3 * 1.8
  let s4 := rngNext s3
  let peakShare := 0.42 + rngValue s4 * 0.08
  let peakUsage := usage * peakShare
  let offPeak := usage - peakUsage
  let cost := usage * 0.18 + peakUsage * 0.07
  let carbon := (usage - solar * 0.55) * 0.45
  let tr := deriveTasks day s4
  let energyDay : EnergyDay :=
    { date := mkDate year month (day : Int),
      usageKwh := round1 usage,
      solarGenerationKwh := round1 (max solar 2.5),
      peakUsageKwh := round1 peakUsage,
      offPeakUsageKwh := round1 (max offPeak 0),
      carbonKg := round1 (max carbon 3.5),
      costUsd := round2 cost,
      baselineKwh := round1 baseline,
      insights := [],
      tasks := tr.1 }
  let ir := generateInsights energyDay tr.2
  ({ energyDay with insights := ir.1 }, ir.2)

/-- The day loop of `buildMonth`: builds `count` consecutive days starting at
day number `day`, threading the generator state. -/
def buildDays (env : Env) (year : Int) (month : ℕ) (daysInM : ℕ) :
    ℕ → ℕ → Int → List EnergyDay × Int
  | 0, _, rng => ([], rng)
  | Nat.succ n, day, rng =>
      let dr := buildDay env year month daysInM day rng
      let rest := buildDays env year month daysInM n (day + 1) dr.2
      (dr.1 :: rest.1, rest.2)

/-- Weekly averages: usage averaged over consecutive chunks of 7 days, the
last chunk possibly shorter, each average rounded to one decimal. -/
def weeklyAverages : List EnergyDay → List ℚ
  | [] => []
  | d :: rest =>
      let slice := d :: rest.take 6
      round1 ((slice.map (fun x => x.usageKwh)).sum / (slice.length : ℚ)) ::
        weeklyAverages (rest.drop 6)
termination_by l => l.length
decreasing_by simp [List.length_drop]; omega

/-- The en-US long month names used by `formatMonthLabel` through `Intl`. -/
def monthNames : List String :=
  ["January", "February", "March", "April", "May", "June", "July", "August",
   "September", "October", "November", "December"]

/-- `formatMonthLabel(year, month)`: en-US "<Month> <year>" for the first of
the month (modelled for common-era years). -/
def formatMonthLabel (year : Int) (month : ℕ) : String :=
  let d := mkDate year month 1
  monthNames.getD d.month.toNat "" ++ " " ++ toString d.year

/-- `String.prototype.padStart(2, "0")` for the nonempty strings produced by
`String(month + 1)`. -/
def padStart2 (s : String) : String := if s.length < 2 then "0" ++ s else s

/-- `buildMonthKey(year, month)`. -/
def buildMonthKey (year : Int) (month : ℕ) : String :=
  toString year ++ "-" ++ padStart2 (toString (month + 1))

/-- The static recommendations list attached to every snapshot. -/
def recommendationsList : List String :=
  [ "Shift flexible loads (EV, laundry) fully into off-peak windows.",
    "Pre-cool the facility before peak alert days to ride through curtailments.",
    "Leverage battery discharge to cap evening peaks above 15 kWh.",
    "Audit standby baseload and eliminate devices drawing >8 W overnight." ]

/-- The cache-miss body of `buildMonth`: seed the generator with
`year*97 + month*31 + 2024`, build every day, total the stored daily fields,
then weekly averages and demand events. -/
def buildMonthFresh (env : Env) (year : Int) (month : ℕ) : MonthEnergySnapshot :=
  let rng0 := normalizeSeed (year * 97 + (month : Int) * 31 + 2024)
  let daysInM := daysInMonth year month
  let dr := buildDays env year month daysInM daysInM 1 rng0
  let days := dr.1
  let totalUsage := (days.map (fun d => d.usageKwh)).sum
  let totalSolar := (days.map (fun d => d.solarGenerationKwh)).sum
  let totalCarbon := (days.map (fun d => d.carbonKg)).sum
  let totalCost := (days.map (fun d => d.costUsd)).sum
  let totalBaseline := (days.map (fun d => d.baselineKwh)).sum
  let er := createDemandEvents year month dr.2
  { monthStart := mkDate year month 1,
    label := formatMonthLabel year month,
    days := days,
    totals :=
      { usageKwh := round1 totalUsage,
        solarGenerationKwh := round1 totalSolar,
        netGridKwh := round1 (totalUsage - totalSolar),
        carbonKg := round1 totalCarbon,
        baselineKwh := round1 totalBaseline,
        costUsd := round2 totalCost,
        targetKwh := round1 (totalBaseline * 0.95) },
    demandEvents := er.1,
    recommendations := recommendationsList,
    weeklyAverages := weeklyAverages days }

/-- The process-wide `MONTH_CACHE`, modelled as an association list. -/
abbrev MonthCache := List (String × MonthEnergySnapshot)

/-- `buildMonth(year, month)` with the cache threaded explicitly: cache hit
returns the stored snapshot unchanged, cache miss builds and stores. -/
def buildMonth (env : Env) (year : Int) (month : ℕ) (cache : MonthCache) :
    MonthEnergySnapshot × MonthCache :=
  let key := buildMonthKey year month
  match cache.find? (fun entry => entry.1 == key) with
  | some entry => (entry.2, cache)
  | none =>
      let snapshot := buildMonthFresh env year month
      (snapshot, (key, snapshot) :: cache)

/-- `getMonthSnapshot(date)`: build the month enclosing `date`. -/
def getMonthSnapshot (env : Env) (date : JsDate) (cache : MonthCache) :
    MonthEnergySnapshot × MonthCache :=
  buildMonth env date.year date.month.toNat cache

/-- JS `setMonth(m)` on a valid date (day of month in 1..31): normalize the
month index into the year, then let an overflowing day spill into the
following month, exactly as `MakeDay` does. -/
def setMonthJs (d : JsDate) (m : Int) : JsDate :=
  let y := d.year + m / 12
  let mo := m % 12
  let dim : Int := (daysInMonth y mo.toNat : ℕ)
  if d.day ≤ dim then ⟨y, mo, d.day⟩
  else if mo = 11 then ⟨y + 1, 0, d.day - dim⟩
  else ⟨y, mo + 1, d.day - dim⟩

/-- `getAdjacentMonth(date, offset)`: copy, `setMonth(getMonth() + offset)`,
then `setDate(1)`. -/
def getAdjacentMonth (date : JsDate) (offset : Int) : JsDate :=
  let next := setMonthJs date (date.month + offset)
  { next with day := 1 }

/-- Every id `deriveTasks` can emit for a given day. -/
def candIds (day : ℕ) : List String :=
  [toString day ++ "-preset-0", toString day ++ "-preset-1", toString day ++ "-adhoc"]

/-- Cache predicate for the determinism statement: every cached snapshot under
a month key is the one `buildMonthFresh` produces for that pair.  The empty
cache satisfies it, and `buildMonth` preserves it. -/
def WellFormedCache (env : Env) (cache : MonthCache) : Prop :=
  ∀ entry ∈ cache, ∀ year : Int, ∀ month : ℕ,
    entry.1 = buildMonthKey year month → entry.2 = buildMonthFresh env year month

/-- A sample environment, used only to instantiate parametric theorems at
concrete inputs. -/
def zeroEnv : Env := ⟨fun _ => 0, fun _ => 0⟩

/-! ### Rounding lemmas -/

theorem round1_sub_le (x : ℚ) : |round1 x - x| ≤ 1/20 := by
  have h1 : ((⌊x * 10 + 1/2⌋ : ℤ) : ℚ) ≤ x * 10 + 1/2 := Int.floor_le _
  have h2 : x * 10 + 1/2 < (⌊x * 10 + 1/2⌋ : ℤ) + 1 := Int.lt_floor_add_one _
  rw [round1, abs_le]
  constructor <;> linarith

theorem round2_sub_le (x : ℚ) : |round2 x - x| ≤ 1/200 := by
  have h1 : ((⌊x * 100 + 1/2⌋ : ℤ) : ℚ) ≤ x * 100 + 1/2 := Int.floor_le _
  have h2 : x * 100 + 1/2 < (⌊x * 100 + 1/2⌋ : ℤ) + 1 := Int.lt_floor_add_one _
  rw [round2, abs_le]
  constructor <;> linarith

theorem le_round1 (c : ℤ) (x : ℚ) (h : (c : ℚ)/10 ≤ x) : (c : ℚ)/10 ≤ round1 x := by
  have hc : (c : ℚ) ≤ x * 10 + 1/2 := by linarith
  have : (c : ℚ) ≤ ((⌊x * 10 + 1/2⌋ : ℤ) : ℚ) := by
    exact_mod_cast Int.le_floor.mpr hc
  rw [round1]
  linarith

/-! ### RNG state lemmas -/

theorem tmod_neg_left (a b : Int) : (-a).tmod b = -(a.tmod b) := by
  rw [Int.tmod_def, Int.tmod_def, Int.neg_tdiv]
  ring

theorem tmod_bounds (a : Int) {b : Int} (hb : 0 < b) : -b < a.tmod b ∧ a.tmod b < b := by
  rcases le_or_lt 0 a with ha | ha
  · have h1 := Int.tmod_nonneg b ha
    have h2 := Int.tmod_lt_of_pos a hb
    exact ⟨by omega, h2⟩
  · have ha' : 0 ≤ -a := by omega
    have h1 := Int.tmod_nonneg b ha'
    have h2 := Int.tmod_lt_of_pos (-a) hb
    have h3 : a.tmod b = -((-a).tmod b) := by rw [tmod_neg_left, neg_neg]
    omega

theorem validState_rngNext {s : Int} (h : ValidRngState s) : ValidRngState (rngNext s) := by
  obtain ⟨h1, h2⟩ := h
  have hm : (0 : Int) < 2147483647 := by norm_num
  have hnn : 0 ≤ s * 16807 := by positivity
  have hemod : rngNext s = (s * 16807) % 2147483647 := by
    rw [rngNext, Int.tmod_eq_emod hnn (by norm_num)]
  have hub : (s * 16807) % 2147483647 < 2147483647 := Int.emod_lt_of_pos _ hm
  have hlb : 0 ≤ (s * 16807) % 2147483647 := Int.emod_nonneg _ (by norm_num)
  have hne : (s * 16807) % 2147483647 ≠ 0 := by
    intro h0
    have hdvd : (2147483647 : Int) ∣ s * 16807 := Int.dvd_of_emod_eq_zero h0
    have hcop : IsCoprime (2147483647 : Int) 16807 :=
      Int.isCoprime_iff_gcd_eq_one.mpr (by decide)
    have : (2147483647 : Int) ∣ s := hcop.dvd_of_dvd_mul_right hdvd
    have := Int.le_of_dvd (by omega) this
    omega
  constructor <;> omega

theorem rngValue_bounds {s : Int} (h : ValidRngState s) :
    0 ≤ rngValue s ∧ rngValue s < 1 := by
  obtain ⟨h1, h2⟩ := h
  have c1 : (1 : ℚ) ≤ (s : ℚ) := by exact_mod_cast h1
  have c2 : (s : ℚ) ≤ 2147483646 := by exact_mod_cast h2
  constructor
  · apply div_nonneg <;> linarith
  · rw [rngValue, div_lt_one (by norm_num)]
    linarith

theorem validState_normalizeSeed {seed : Int}
    (h : seed.tmod 2147483647 ≠ -2147483646) : ValidRngState (normalizeSeed seed) := by
  obtain ⟨hlb, hub⟩ := @tmod_bounds seed 2147483647 (by norm_num)
  rw [normalizeSeed]
  constructor <;> (split <;> omega)

theorem validState_normalizeSeed_of_pos {seed : Int} (h : 0 < seed) :
    ValidRngState (normalizeSeed seed) := by
  apply validState_normalizeSeed
  have h1 := Int.tmod_nonneg (2147483647 : Int) (le_of_lt h)
  omega

/-! ### State preservation through the generator pipeline -/

theorem validState_adhocTaskStep (day : ℕ) {s : Int} (h : ValidRngState s) :
    ValidRngState (adhocTaskStep day s).2 := by
  simp only [adhocTaskStep]
  split
  · exact validState_rngNext (validState_rngNext h)
  · exact validState_rngNext h

theorem validState_deriveTasks (day : ℕ) {s : Int} (h : ValidRngState s) :
    ValidRngState (deriveTasks day s).2 := by
  rw [deriveTasks]
  cases presets.find? (fun config => config.day == day) with
  | some preset => exact h
  | none => exact validState_adhocTaskStep day h

theorem validState_solarInsightStep (day : EnergyDay) {s : Int} (h : ValidRngState s) :
    ValidRngState (solarInsightStep day s).2 := by
  simp only [solarInsightStep]
  split
  · exact validState_rngNext h
  · exact h

theorem validState_generateInsights (day : EnergyDay) {s : Int} (h : ValidRngState s) :
    ValidRngState (generateInsights day s).2 :=
  validState_solarInsightStep day h

theorem validState_buildDay (env : Env) (year : Int) (month daysInM day : ℕ) {s : Int}
    (h : ValidRngState s) : ValidRngState (buildDay env year month daysInM day s).2 := by
  exact validState_generateInsights _
    (validState_deriveTasks day
      (validState_rngNext (validState_rngNext (validState_rngNext (validState_rngNext h)))))

theorem validState_buildDays (env : Env) (year : Int) (month daysInM : ℕ) :
    ∀ (count day : ℕ) {s : Int}, ValidRngState s →
      ValidRngState (buildDays env year month daysInM count day s).2 := by
  intro count
  induction count with
  | zero => intro day s h; exact h
  | succ n ih =>
    intro day s h
    exact ih (day + 1) (validState_buildDay env year month daysInM day h)

/-! ### Shape of the generated day list -/

theorem buildDays_shape (env : Env) (year : Int) (month daysInM : ℕ) :
    ∀ (count day : ℕ) (rng : Int), ∃ f : ℕ → Int,
      (buildDays env year month daysInM count day rng).1 =
        (List.range count).map
          (fun i => (buildDay env year month daysInM (day + i) (f i)).1) := by
  intro count
  induction count with
  | zero => intro day rng; exact ⟨fun _ => 0, rfl⟩
  | succ n ih =>
    intro day rng
    obtain ⟨f, hf⟩ := ih (day + 1) (buildDay env year month daysInM day rng).2
    refine ⟨fun i => match i with | 0 => rng | Nat.succ j => f j, ?_⟩
    rw [List.range_succ_eq_map, List.map_cons, List.map_map]
    show (buildDay env year month daysInM day rng).1 ::
        (buildDays env year month daysInM n (day + 1)
          (buildDay env year month daysInM day rng).2).1 = _
    refine List.cons_eq_cons.mpr ⟨?_, ?_⟩
    · simp
    · rw [hf]
      apply List.map_congr_left
      intro i _
      have harith : day + 1 + i = day + (i + 1) := by omega
      simp only [Function.comp_apply, harith]

/-! ### Cache behaviour of `buildMonth` -/

theorem buildMonth_eq_fresh {env : Env} {year : Int} {month : ℕ} {cache : MonthCache}
    (h : WellFormedCache env cache) :
    (buildMonth env year month cache).1 = buildMonthFresh env year month := by
  cases hfind : cache.find? (fun entry => entry.1 == buildMonthKey year month) with
  | none => simp only [buildMonth, hfind]
  | some entry =>
    have hmem := List.mem_of_find?_eq_some hfind
    have hpred := List.find?_some hfind
    have hkey : entry.1 = buildMonthKey year month := by
      exact eq_of_beq hpred
    have hval := h entry hmem year month hkey
    simp only [buildMonth, hfind]
    exact hval

theorem buildMonth_repeat (env : Env) (year : Int) (month : ℕ) (cache : MonthCache) :
    buildMonth env year month ((buildMonth env year month cache).2) =
      ((buildMonth env year month cache).1, (buildMonth env year month cache).2) := by
  cases hfind : cache.find? (fun entry => entry.1 == buildMonthKey year month) with
  | some entry =>
    have h1 : buildMonth env year month cache = (entry.2, cache) := by
      simp only [buildMonth, hfind]
    rw [h1]
    exact h1
  | none =>
    have h1 : buildMonth env year month cache =
        (buildMonthFresh env year month,
          (buildMonthKey year month, buildMonthFresh env year month) :: cache) := by
      simp only [buildMonth, hfind]
    rw [h1]
    have h2 : ((buildMonthKey year month, buildMonthFresh env year month) :: cache).find?
        (fun entry => entry.1 == buildMonthKey year month) =
        some (buildMonthKey year month, buildMonthFresh env year month) := by
      apply List.find?_cons_of_pos
      exact beq_self_eq_true _
    simp only [buildMonth, h2]

/-! ### Calendar bounds -/

theorem monthLengths_bounds : ∀ (b : Bool), ∀ k < 12,
    28 ≤ (monthLengths b).getD k 31 ∧ (monthLengths b).getD k 31 ≤ 31 := by decide

theorem daysInMonth_bounds (year : Int) (month : ℕ) :
    28 ≤ daysInMonth year month ∧ daysInMonth year month ≤ 31 := by
  rw [daysInMonth]
  exact monthLengths_bounds _ _ (Nat.mod_lt _ (by norm_num))

/-! ### Candidate task ids -/

theorem candIds_all_disjoint_bool :
    ((List.range 32).all (fun a => (List.range 32).all (fun b =>
      a == b || (candIds a).all (fun s => decide (s ∉ candIds b))))) = true := by decide

theorem candIds_disjoint {d1 d2 : ℕ} (h1 : d1 < 32) (h2 : d2 < 32) (hne : d1 ≠ d2) :
    ∀ s ∈ candIds d1, s ∉ candIds d2 := by
  intro s hs
  have hb := candIds_all_disjoint_bool
  rw [List.all_eq_true] at hb
  have hb1 := hb d1 (List.mem_range.mpr h1)
  rw [List.all_eq_true] at hb1
  have hb2 := hb1 d2 (List.mem_range.mpr h2)
  rw [Bool.or_eq_true] at hb2
  rcases hb2 with h | h
  · exact absurd (eq_of_beq h) hne
  · rw [List.all_eq_true] at h
    exact of_decide_eq_true (h s hs)

/-! ### Iterated generator states -/

theorem validState_iterate (k : ℕ) {s : Int} (h : ValidRngState s) :
    ValidRngState (rngNext^[k] s) := by
  induction k with
  | zero => simpa using h
  | succ n ih =>
    rw [Function.iterate_succ']
    exact validState_rngNext ih

/-- Claim C1: for every (year, zero-based month) pair, building the month
snapshot is deterministic and idempotent: two independent calls of the
synthesizer (on any well-formed caches, in particular on fresh ones) return
field-for-field identical `MonthEnergySnapshot` content, and a repeat call
returns exactly the previously cached snapshot while leaving the cache
untouched, so no day's task or insight list is regenerated or mutated. -/
theorem monthSnapshot_deterministic_idempotent (env : Env) (year : Int) (month : ℕ)
    (c c' : MonthCache) (h : WellFormedCache env c) (h' : WellFormedCache env c') :
    (buildMonth env year month c).1 = (buildMonth env year month c').1 ∧
    buildMonth env year month ((buildMonth env year month c).2) =
      ((buildMonth env year month c).1, (buildMonth env year month c).2) :=
  ⟨(buildMonth_eq_fresh h).trans (buildMonth_eq_fresh h').symm,
    buildMonth_repeat env year month c⟩

/-- Witness for C1: the empty cache is well-formed and the theorem applies to
February 2024 on it. -/
theorem monthSnapshot_deterministic_idempotent_witness :
    WellFormedCache zeroEnv [] ∧
    ((buildMonth zeroEnv 2024 1 []).1 = (buildMonth zeroEnv 2024 1 []).1 ∧
      buildMonth zeroEnv 2024 1 ((buildMonth zeroEnv 2024 1 []).2) =
        ((buildMonth zeroEnv 2024 1 []).1, (buildMonth zeroEnv 2024 1 []).2)) :=
  ⟨fun entry hmem => absurd hmem (List.not_mem_nil entry),
    monthSnapshot_deterministic_idempotent zeroEnv 2024 1 [] []
      (fun entry hmem => absurd hmem (List.not_mem_nil entry))
      (fun entry hmem => absurd hmem (List.not_mem_nil entry))⟩

/-- Counterexample to claim C2 as stated: for the integer seed `-2147483646`
the normalization of `createRng` leaves the internal state at `0`, outside the
valid range `[1, 2147483646]`, and the first returned value is negative, hence
not in `[0, 1)`. -/
theorem createRng_seed_counterexample :
    normalizeSeed (-2147483646) = 0 ∧ ¬ (1 ≤ normalizeSeed (-2147483646)) ∧
    rngStream (-2147483646) 0 < 0 := by
  have h0 : normalizeSeed (-2147483646) = 0 := by decide
  refine ⟨h0, by rw [h0]; decide, ?_⟩
  have h1 : rngNext^[0 + 1] ((0 : Int)) = 0 := by decide
  show rngValue (rngNext^[0 + 1] (normalizeSeed (-2147483646))) < 0
  rw [h0, h1, rngValue]
  norm_num

/-- Claim C2, amended: for every integer seed except those with
`seed tmod 2147483647 = -2147483646`, `createRng` normalizes the internal
state into `[1, 2147483646]` and every returned value of the sequence lies in
`[0, 1)`.  (Identical seeds trivially yield identical output sequences: the
embedded generator is a pure function of the seed.) -/
theorem createRng_amended (seed : Int) (h : seed.tmod 2147483647 ≠ -2147483646) :
    (1 ≤ normalizeSeed seed ∧ normalizeSeed seed ≤ 2147483646) ∧
    ∀ n : ℕ, 0 ≤ rngStream seed n ∧ rngStream seed n < 1 := by
  have hv := validState_normalizeSeed h
  refine ⟨hv, fun n => ?_⟩
  exact rngValue_bounds (validState_iterate (n + 1) hv)

/-- Witness for the amended C2 at seed 1. -/
theorem createRng_amended_witness :
    (1 : Int).tmod 2147483647 ≠ -2147483646 ∧
    ((1 ≤ normalizeSeed 1 ∧ normalizeSeed 1 ≤ 2147483646) ∧
      ∀ n : ℕ, 0 ≤ rngStream 1 n ∧ rngStream 1 n < 1) :=
  ⟨by decide, createRng_amended 1 (by decide)⟩

/-- Counterexample to claim C4 as stated: for the input date 2024-01-31 and
offset 1 the returned date has month index 2 (March), not the claimed index 1
(February): `setMonth` runs before `setDate(1)`, so the day 31 overflows
February into March. -/
theorem getAdjacentMonth_counterexample :
    getAdjacentMonth ⟨2024, 0, 31⟩ 1 = ⟨2024, 2, 1⟩ ∧
    (getAdjacentMonth ⟨2024, 0, 31⟩ 1).month ≠ 1 := by decide

/-- Claim C4, amended: `getAdjacentMonth` returns the 1st of the month exactly
`offset` months from the input (with standard year rollover) whenever the
input's day-of-month does not exceed the length of that target month — in
particular for every input day ≤ 28 and for all month-start dates the
application passes. -/
theorem getAdjacentMonth_amended (date : JsDate) (offset : Int)
    (hfit : date.day ≤ ((daysInMonth (date.year + (date.month + offset) / 12)
      ((date.month + offset) % 12).toNat : ℕ) : Int)) :
    getAdjacentMonth date offset =
      ⟨date.year + (date.month + offset) / 12, (date.month + offset) % 12, 1⟩ := by
  simp only [getAdjacentMonth, setMonthJs]
  rw [if_pos hfit]

/-- Witness for the amended C4: mid-January 2024 moved one month forward lands
on 2024-02-01. -/
theorem getAdjacentMonth_amended_witness :
    ((15 : Int) ≤ ((daysInMonth ((2024 : Int) + ((0 : Int) + 1) / 12)
      (((0 : Int) + 1) % 12).toNat : ℕ) : Int)) ∧
    getAdjacentMonth ⟨2024, 0, 15⟩ 1 =
      ⟨(2024 : Int) + ((0 : Int) + 1) / 12, ((0 : Int) + 1) % 12, 1⟩ :=
  ⟨by decide, getAdjacentMonth_amended ⟨2024, 0, 15⟩ 1 (by decide)⟩

/-! ### Projections of the freshly built snapshot -/

theorem buildMonthFresh_days (env : Env) (year : Int) (month : ℕ) :
    (buildMonthFresh env year month).days =
      (buildDays env year month (daysInMonth year month) (daysInMonth year month) 1
        (normalizeSeed (year * 97 + (month : Int) * 31 + 2024))).1 := rfl

theorem buildMonthFresh_demandEvents (env : Env) (year : Int) (month : ℕ) :
    (buildMonthFresh env year month).demandEvents =
      (createDemandEvents year month
        (buildDays env year month (daysInMonth year month) (daysInMonth year month) 1
          (normalizeSeed (year * 97 + (month : Int) * 31 + 2024))).2).1 := rfl

theorem buildDay_date (env : Env) (year : Int) (month daysInM day : ℕ) (s : Int) :
    (buildDay env year month daysInM day s).1.date = mkDate year month (day : Int) := rfl

theorem buildDays_length (env : Env) (year : Int) (month daysInM : ℕ) :
    ∀ (count day : ℕ) (rng : Int),
      (buildDays env year month daysInM count day rng).1.length = count := by
  intro count
  induction count with
  | zero => intro day rng; rfl
  | succ n ih =>
    intro day rng
    simp only [buildDays, List.length_cons, ih]

theorem buildDays_dates (env : Env) (year : Int) (month daysInM : ℕ) :
    ∀ (count day : ℕ) (rng : Int),
      (buildDays env year month daysInM count day rng).1.map (fun d => d.date) =
        (List.range count).map (fun i => mkDate year month ((day + i : ℕ) : Int)) := by
  intro count
  induction count with
  | zero => intro day rng; rfl
  | succ n ih =>
    intro day rng
    rw [List.range_succ_eq_map, List.map_cons, List.map_map]
    show (buildDay env year month daysInM day rng).1.date ::
        (buildDays env year month daysInM n (day + 1)
          (buildDay env year month daysInM day rng).2).1.map (fun d => d.date) = _
    refine List.cons_eq_cons.mpr ⟨?_, ?_⟩
    · rw [buildDay_date]
      norm_num
    · rw [ih]
      apply List.map_congr_left
      intro i _
      simp only [Function.comp_apply]
      have harith : day + 1 + i = day + (i + 1) := by omega
      rw [harith]

/-- Claim C5: for every (year, month) pair the generated snapshot contains one
`EnergyDay` per calendar day of the month, in ascending calendar order, with
correct leap-year handling; in particular February 2024 yields 29 entries and
`monthStart` 2024-02-01 (local midnight), and generation is total (the
embedding is a total function, so no exception is possible). -/
theorem month_days_calendar (env : Env) (year : Int) (month : ℕ) :
    (buildMonthFresh env year month).days.map (fun d => d.date) =
      (List.range (daysInMonth year month)).map
        (fun i => mkDate year month ((1 + i : ℕ) : Int)) ∧
    (buildMonthFresh env year month).days.length = daysInMonth year month ∧
    daysInMonth 2024 1 = 29 ∧ daysInMonth 2023 1 = 28 ∧
    (buildMonthFresh env 2024 1).days.length = 29 ∧
    (buildMonthFresh env 2024 1).monthStart = ⟨2024, 1, 1⟩ := by
  refine ⟨?_, ?_, by decide, by decide, ?_, rfl⟩
  · rw [buildMonthFresh_days, buildDays_dates]
  · rw [buildMonthFresh_days, buildDays_length]
  · rw [buildMonthFresh_days, buildDays_length]
    decide

/-- Claim C6: in every generated snapshot, day 18 carries exactly the two
preset tasks "Load tuning workshop" and "Battery discharge planning" and day 2
exactly the preset task "Optimize thermostat schedule", with ids
`{day}-preset-{index}` and status planned; and on the preset days 2, 5, 12,
18, 24 `deriveTasks` consumes no value from the shared sequence (its state
component is returned unchanged). -/
theorem preset_days_tasks (env : Env) (year : Int) (month : ℕ) (s : Int) :
    ((buildMonthFresh env year month).days[17]?).map (fun d => d.tasks) =
      some
        [ { id := "18-preset-0", title := "Load tuning workshop", time := "15:30",
            description := "Review automation scripts for HVAC and lighting.",
            impact := { type := EnergyImpactType.reduction, value := 1.9 },
            status := TaskStatus.planned },
          { id := "18-preset-1", title := "Battery discharge planning", time := "19:00",
            description := "Allocate battery discharge for peak window.",
            impact := { type := EnergyImpactType.shift, value := 4.6 },
            status := TaskStatus.planned } ] ∧
    ((buildMonthFresh env year month).days[1]?).map (fun d => d.tasks) =
      some
        [ { id := "2-preset-0", title := "Optimize thermostat schedule", time := "07:30",
            description := "Adjust weekday morning setpoints to reduce HVAC runtime.",
            impact := { type := EnergyImpactType.reduction, value := 2.4 },
            status := TaskStatus.planned } ] ∧
    (deriveTasks 2 s).2 = s ∧ (deriveTasks 5 s).2 = s ∧ (deriveTasks 12 s).2 = s ∧
    (deriveTasks 18 s).2 = s ∧ (deriveTasks 24 s).2 = s := by
  have hdim := daysInMonth_bounds year month
  obtain ⟨f, hf⟩ := buildDays_shape env year month (daysInMonth year month)
    (daysInMonth year month) 1 (normalizeSeed (year * 97 + (month : Int) * 31 + 2024))
  refine ⟨?_, ?_, rfl, rfl, rfl, rfl, rfl⟩
  · rw [buildMonthFresh_days, hf, List.getElem?_map, List.getElem?_range (by omega)]
    rfl
  · rw [buildMonthFresh_days, hf, List.getElem?_map, List.getElem?_range (by omega)]
    rfl

/-! ### Demand events -/

theorem demandEventsLoop_length (year : Int) (month daysInM : ℕ) :
    ∀ (n index : ℕ) (s : Int),
      ((demandEventsLoop year month daysInM n index s).1).length = n := by
  intro n
  induction n with
  | zero => intro index s; rfl
  | succ k ih =>
    intro index s
    simp only [demandEventsLoop, List.length_cons, ih]

theorem createDemandEvents_length (year : Int) (month : ℕ) (s : Int) :
    ((createDemandEvents year month s).1).length =
      (2 + ⌊rngValue (rngNext s) * 2⌋).toNat := by
  simp only [createDemandEvents]
  rw [List.length_insertionSort, demandEventsLoop_length]

theorem createDemandEvents_sorted (year : Int) (month : ℕ) (s : Int) :
    List.Sorted demandLE (createDemandEvents year month s).1 := by
  simp only [createDemandEvents]
  exact List.sorted_insertionSort demandLE _

/-- Every seed the month synthesizer can derive from a JS-representable date
(years of JS `Date` lie within ±275760) normalizes to a valid generator
state. -/
theorem validState_seed (year : Int) (month : ℕ) (h : -275760 ≤ year) :
    ValidRngState (normalizeSeed (year * 97 + (month : Int) * 31 + 2024)) := by
  apply validState_normalizeSeed
  have hm : (0 : Int) ≤ (month : Int) := Int.natCast_nonneg month
  have hlb : -26748720 ≤ year * 97 + (month : Int) * 31 + 2024 := by nlinarith
  rcases le_or_lt 0 (year * 97 + (month : Int) * 31 + 2024) with hpos | hneg
  · have := Int.tmod_nonneg (2147483647 : Int) hpos
    omega
  · have heq : (year * 97 + (month : Int) * 31 + 2024).tmod 2147483647 =
        year * 97 + (month : Int) * 31 + 2024 := by
      have h1 : (year * 97 + (month : Int) * 31 + 2024) =
          -(-(year * 97 + (month : Int) * 31 + 2024)) := by ring
      rw [h1, tmod_neg_left, Int.tmod_eq_of_lt (by omega) (by omega)]
    omega

/-- Claim C7: for every (year, month) pair with a JS-representable year, the
snapshot's demand-events list contains exactly 2 or 3 entries (the count is
drawn as `2 + ⌊roll · 2⌋` with the roll in `[0, 1)`) and is sorted
non-decreasing by event date. -/
theorem demand_events_count_sorted (env : Env) (year : Int) (month : ℕ)
    (h : -275760 ≤ year) :
    ((buildMonthFresh env year month).demandEvents.length = 2 ∨
      (buildMonthFresh env year month).demandEvents.length = 3) ∧
    List.Sorted demandLE (buildMonthFresh env year month).demandEvents := by
  constructor
  · rw [buildMonthFresh_demandEvents, createDemandEvents_length]
    have hseed := validState_seed year month h
    have hvalid : ValidRngState (rngNext
        ((buildDays env year month (daysInMonth year month) (daysInMonth year month) 1
          (normalizeSeed (year * 97 + (month : Int) * 31 + 2024))).2)) :=
      validState_rngNext
        (validState_buildDays env year month (daysInMonth year month)
          (daysInMonth year month) 1 hseed)
    obtain ⟨hv0, hv1⟩ := rngValue_bounds hvalid
    have hfl0 : 0 ≤ ⌊rngValue (rngNext
        ((buildDays env year month (daysInMonth year month) (daysInMonth year month) 1
          (normalizeSeed (year * 97 + (month : Int) * 31 + 2024))).2)) * 2⌋ :=
      Int.floor_nonneg.mpr (by linarith)
    have hfl2 : ⌊rngValue (rngNext
        ((buildDays env year month (daysInMonth year month) (daysInMonth year month) 1
          (normalizeSeed (year * 97 + (month : Int) * 31 + 2024))).2)) * 2⌋ < 2 := by
      rw [Int.floor_lt]
      push_cast
      linarith
    omega
  · rw [buildMonthFresh_demandEvents]
    exact createDemandEvents_sorted year month _

/-- Witness for C7 at January 2024. -/
theorem demand_events_count_sorted_witness :
    (-275760 : Int) ≤ 2024 ∧
    (((buildMonthFresh zeroEnv 2024 0).demandEvents.length = 2 ∨
        (buildMonthFresh zeroEnv 2024 0).demandEvents.length = 3) ∧
      List.Sorted demandLE (buildMonthFresh zeroEnv 2024 0).demandEvents) :=
  ⟨by decide, demand_events_count_sorted zeroEnv 2024 0 (by decide)⟩

/-- Claim C8: every total is the rounding of the straight sum of the
corresponding stored (rounded) daily fields, hence within 0.05 of that sum;
`targetKwh` equals the baseline daily sum (before the final total rounding)
times 0.95, rounded to one decimal. -/
theorem totals_consistency (env : Env) (year : Int) (month : ℕ) :
    |(buildMonthFresh env year month).totals.usageKwh -
      ((buildMonthFresh env year month).days.map (fun d => d.usageKwh)).sum| ≤ 0.05 ∧
    |(buildMonthFresh env year month).totals.solarGenerationKwh -
      ((buildMonthFresh env year month).days.map (fun d => d.solarGenerationKwh)).sum| ≤ 0.05 ∧
    |(buildMonthFresh env year month).totals.carbonKg -
      ((buildMonthFresh env year month).days.map (fun d => d.carbonKg)).sum| ≤ 0.05 ∧
    |(buildMonthFresh env year month).totals.baselineKwh -
      ((buildMonthFresh env year month).days.map (fun d => d.baselineKwh)).sum| ≤ 0.05 ∧
    |(buildMonthFresh env year month).totals.costUsd -
      ((buildMonthFresh env year month).days.map (fun d => d.costUsd)).sum| ≤ 0.05 ∧
    (buildMonthFresh env year month).totals.targetKwh =
      round1 (((buildMonthFresh env year month).days.map (fun d => d.baselineKwh)).sum * 0.95) := by
  refine ⟨?_, ?_, ?_, ?_, ?_, rfl⟩
  · exact le_trans (round1_sub_le _) (by norm_num)
  · exact le_trans (round1_sub_le _) (by norm_num)
  · exact le_trans (round1_sub_le _) (by norm_num)
  · exact le_trans (round1_sub_le _) (by norm_num)
  · exact le_trans (round2_sub_le _) (by norm_num)

/-! ### Per-day floors -/

theorem round1_max_nonneg (x : ℚ) : 0 ≤ round1 (max x 0) := by
  have h := le_round1 0 (max x 0) (by simp)
  simpa using h

theorem round1_max_25 (x : ℚ) : (2.5 : ℚ) ≤ round1 (max x 2.5) := by
  have h := le_round1 25 (max x 2.5) (by norm_num [le_max_iff])
  push_cast at h
  linarith

theorem round1_max_35 (x : ℚ) : (3.5 : ℚ) ≤ round1 (max x 3.5) := by
  have h := le_round1 35 (max x 3.5) (by norm_num [le_max_iff])
  push_cast at h
  linarith

/-- Claim C9: every day of every generated snapshot satisfies
`offPeakUsageKwh ≥ 0`, `solarGenerationKwh ≥ 2.5` and `carbonKg ≥ 3.5`. -/
theorem day_nonnegativity_floors (env : Env) (year : Int) (month : ℕ) :
    List.Forall (fun d => 0 ≤ d.offPeakUsageKwh ∧ (2.5 : ℚ) ≤ d.solarGenerationKwh ∧
      (3.5 : ℚ) ≤ d.carbonKg) (buildMonthFresh env year month).days := by
  rw [List.forall_iff_forall_mem]
  intro d hd
  rw [buildMonthFresh_days] at hd
  obtain ⟨f, hf⟩ := buildDays_shape env year month (daysInMonth year month)
    (daysInMonth year month) 1 (normalizeSeed (year * 97 + (month : Int) * 31 + 2024))
  rw [hf, List.mem_map] at hd
  obtain ⟨i, _, rfl⟩ := hd
  exact ⟨round1_max_nonneg _, round1_max_25 _, round1_max_35 _⟩

/-! ### Task id distinctness -/

theorem deriveTasks_ids_sub (day : ℕ) (s : Int) :
    ∀ t ∈ (deriveTasks day s).1, t.id ∈ candIds day := by
  cases hfind : presets.find? (fun config => config.day == day) with
  | none =>
    have he : (deriveTasks day s).1 = (adhocTaskStep day s).1 := by
      rw [deriveTasks, hfind]
    rw [he]
    simp only [adhocTaskStep]
    split
    · intro t ht
      simp only [List.mem_singleton] at ht
      subst ht
      simp [candIds]
    · intro t ht
      exact absurd ht (List.not_mem_nil t)
  | some preset =>
    have hmem := List.mem_of_find?_eq_some hfind
    have hpred := @List.find?_some _ (fun config => config.day == day) preset presets hfind
    have hday : preset.day = day := eq_of_beq hpred
    have he : (deriveTasks day s).1 = preset.tasks.enum.map (fun p =>
        { id := toString day ++ "-preset-" ++ toString p.1, title := p.2.title,
          time := p.2.time, description := p.2.description, impact := p.2.impact,
          status := TaskStatus.planned }) := by
      rw [deriveTasks, hfind]
    rw [he]
    subst hday
    simp only [presets, List.mem_cons] at hmem
    rcases hmem with rfl | rfl | rfl | rfl | rfl | hmem
    · decide
    · decide
    · decide
    · decide
    · decide
    · exact absurd hmem (List.not_mem_nil preset)

theorem deriveTasks_ids_pairwise (day : ℕ) (s : Int) :
    ((deriveTasks day s).1.map (fun t => t.id)).Pairwise (fun a b => a ≠ b) := by
  cases hfind : presets.find? (fun config => config.day == day) with
  | none =>
    have he : (deriveTasks day s).1 = (adhocTaskStep day s).1 := by
      rw [deriveTasks, hfind]
    rw [he]
    simp only [adhocTaskStep]
    split
    · simp
    · simp
  | some preset =>
    have hmem := List.mem_of_find?_eq_some hfind
    have hpred := @List.find?_some _ (fun config => config.day == day) preset presets hfind
    have hday : preset.day = day := eq_of_beq hpred
    have he : (deriveTasks day s).1 = preset.tasks.enum.map (fun p =>
        { id := toString day ++ "-preset-" ++ toString p.1, title := p.2.title,
          time := p.2.time, description := p.2.description, impact := p.2.impact,
          status := TaskStatus.planned }) := by
      rw [deriveTasks, hfind]
    rw [he]
    subst hday
    simp only [presets, List.mem_cons] at hmem
    rcases hmem with rfl | rfl | rfl | rfl | rfl | hmem
    · decide
    · decide
    · decide
    · decide
    · decide
    · exact absurd hmem (List.not_mem_nil preset)

/-- Claim C10: within any single generated snapshot, the task ids of all days
are pairwise distinct: day-local ids are `{day}-preset-{index}` or
`{day}-adhoc`, and the leading day number separates different days. -/
theorem task_ids_distinct (env : Env) (year : Int) (month : ℕ) :
    (((buildMonthFresh env year month).days.map
        (fun d => d.tasks.map (fun t => t.id))).flatten).Pairwise
      (fun a b => a ≠ b) := by
  have hdim := daysInMonth_bounds year month
  obtain ⟨f, hf⟩ := buildDays_shape env year month (daysInMonth year month)
    (daysInMonth year month) 1 (normalizeSeed (year * 97 + (month : Int) * 31 + 2024))
  rw [buildMonthFresh_days, hf, List.map_map, List.pairwise_flatten]
  constructor
  · intro l hl
    rw [List.mem_map] at hl
    obtain ⟨i, _, rfl⟩ := hl
    exact deriveTasks_ids_pairwise (1 + i) _
  · rw [List.pairwise_map]
    refine List.Pairwise.imp_of_mem ?_ (List.pairwise_lt_range _)
    intro a b ha hb hlt x hx y hy
    rw [List.mem_range] at ha hb
    simp only [Function.comp_apply] at hx hy
    rw [List.mem_map] at hx hy
    obtain ⟨tx, htx, rfl⟩ := hx
    obtain ⟨ty, hty, rfl⟩ := hy
    have hxc := deriveTasks_ids_sub (1 + a) _ tx htx
    have hyc := deriveTasks_ids_sub (1 + b) _ ty hty
    intro heq
    exact candIds_disjoint (show 1 + a < 32 by omega) (show 1 + b < 32 by omega)
      (by omega) tx.id hxc (heq ▸ hyc)

end EnergyData
